import Mathlib

/-!
# Verification of the sequential task-decomposition workflow (`agent_example.py`)

This development is a shallow embedding of the `Agent` class of
`src/agent_example.py`: the plan → execute-steps → compile pipeline.

Modelling choices:

* The completion capability (the OpenRouter client hidden behind
  `Agent._call_llm`) and Python's `json.loads` are external collaborators,
  not code of this repository.  They are supplied as parameters in an
  `Env` record: `llm` maps a message list to either a raised exception or
  returned content (which may itself be `None`), and `parse` maps a string
  to either a parsed JSON value or a `JSONDecodeError`.
* Python values produced by `json.loads` are modelled by the inductive
  type `Json`.  The Python dictionary operations the source performs on
  them (`len`, truthiness, iteration, subscripting) are modelled by
  `pyLen`, `pyFalsy`, `pyIter`, `pyGetItem`, with Python's exception
  behaviour (`TypeError`, `KeyError`) made explicit via `Except PyError`.
  Dictionaries are represented as association lists with distinct keys,
  which is what `json.loads` produces.
* Side effects are made observable through an event trace: every call to
  the completion capability and every `print` is recorded as an `Event`.
* `time.sleep(1)` (pure pacing) and the unused `conversation_history`
  field are not modelled; neither influences any observable value.
-/

/-- A chat message, as built by the source: a `{"role": ..., "content": ...}`
record. -/
structure Message where
  role : String
  content : String
deriving DecidableEq, Repr

/-- Python values arising from `json.loads`. -/
inductive Json where
  | null : Json
  | bool : Bool → Json
  | num : Int → Json
  | str : String → Json
  | arr : List Json → Json
  | obj : List (String × Json) → Json
deriving Repr

/-- The Python exceptions that the workflow under study can raise. -/
inductive PyError where
  | typeError : PyError
  | keyError : String → PyError
deriving DecidableEq, Repr

/-- What the completion capability does on one call: raise an exception,
or return content (`none` models a `None` message content). -/
inductive LLMResult where
  | raises : String → LLMResult
  | content : Option String → LLMResult
deriving DecidableEq

/-- The external collaborators: the completion capability and `json.loads`
(on string input; `json.loads(None)` is handled separately, see
`analyze_task`). -/
structure Env where
  llm : List Message → LLMResult
  parse : String → Except String Json

/-- One observable event: a call to the completion capability (with the
exact messages sent), or one `print`ed line. -/
inductive Event where
  | llmCall : List Message → Event
  | printed : String → Event
deriving Repr

/-- The LLM calls of a trace, in order, with their messages. -/
def llmEvents (tr : List Event) : List (List Message) :=
  tr.filterMap fun ev =>
    match ev with
    | .llmCall m => some m
    | .printed _ => none

/-- Python `str()` on an optional string: `None` prints as `"None"`
(this is how an absent step result enters the context and the compile
block in the source's f-strings). -/
def optStr : Option String → String
  | none => "None"
  | some s => s

mutual
/-- Python `repr()` on a `Json` value (escaping inside string literals is
not modelled; no claim depends on it). -/
def pyRepr : Json → String
  | .null => "None"
  | .bool true => "True"
  | .bool false => "False"
  | .num n => toString n
  | .str s => "'" ++ s ++ "'"
  | .arr xs => "[" ++ String.intercalate ", " (pyReprList xs) ++ "]"
  | .obj fs => "\x7b" ++ String.intercalate ", " (pyReprFields fs) ++ "\x7d"

/-- `pyRepr` mapped over a list of values. -/
def pyReprList : List Json → List String
  | [] => []
  | x :: xs => pyRepr x :: pyReprList xs

/-- `pyRepr` of each key/value pair of a dictionary. -/
def pyReprFields : List (String × Json) → List String
  | [] => []
  | (k, v) :: fs => ("'" ++ k ++ "': " ++ pyRepr v) :: pyReprFields fs
end

/-- Python `str()` on a `Json` value, as used by the source's f-strings. -/
def pyStr : Json → String
  | .str s => s
  | v => pyRepr v

/-- Python truthiness of a `Json` value (`if not steps:` in `solve`). -/
def pyFalsy : Json → Bool
  | .null => true
  | .bool b => !b
  | .num n => n == 0
  | .str s => s.isEmpty
  | .arr xs => xs.isEmpty
  | .obj fs => fs.isEmpty

/-- Python `len()` on a `Json` value; `TypeError` on numbers, booleans and
`None`. -/
def pyLen : Json → Except PyError Nat
  | .str s => .ok s.length
  | .arr xs => .ok xs.length
  | .obj fs => .ok fs.length
  | _ => .error .typeError

/-- Python iteration over a `Json` value (`for step in steps`): lists yield
their elements, dictionaries their keys, strings their characters;
`TypeError` otherwise. -/
def pyIter : Json → Except PyError (List Json)
  | .arr xs => .ok xs
  | .obj fs => .ok (fs.map fun f => Json.str f.1)
  | .str s => .ok (s.data.map fun c => Json.str (String.mk [c]))
  | _ => .error .typeError

/-- Python subscripting `v[key]` with a string key: dictionary lookup
(`KeyError` when absent), `TypeError` on every other value. -/
def pyGetItem (v : Json) (key : String) : Except PyError Json :=
  match v with
  | .obj fs =>
    match fs.lookup key with
    | some x => .ok x
    | none => .error (.keyError key)
  | _ => .error .typeError

/-- The system prompt of `analyze_task` (source lines 97-106). -/
def analyzeSystemPrompt : String :=
  "\n        You are an AI task planner. Your job is to break down a user's request \n        into a series of clear, discrete steps that can be executed sequentially.\n        \n        Respond with a JSON array of steps, where each step has:\n        1. A \"description\" field describing what needs to be done\n        2. A \"reasoning\" field explaining why this step is necessary\n        \n        Format your response as a valid JSON array without any additional text.\n        "

/-- The system prompt of `execute_step` (source lines 135-139). -/
def executeSystemPrompt : String :=
  "\n        You are an AI assistant focusing on executing a specific task step.\n        Use the provided context and step description to complete this specific step only.\n        Your response should be detailed and directly address the step's requirements.\n        "

/-- The system prompt of `compile_results` (source lines 160-164). -/
def compileSystemPrompt : String :=
  "\n        You are an AI assistant that compiles information from multiple processing steps \n        into a coherent, unified response. Your goal is to present the information clearly \n        and directly address the user's original query.\n        "

/-- The messages `analyze_task` sends to the capability. -/
def analyzeMessages (user_query : String) : List Message :=
  [⟨"system", analyzeSystemPrompt⟩,
   ⟨"user", s!"Break down this task into steps: {user_query}"⟩]

/-- The messages `execute_step` sends: the f-string at source line 141
combines the running context, the step's description and its reasoning. -/
def execMessages (context : String) (d r : Json) : List Message :=
  [⟨"system", executeSystemPrompt⟩,
   ⟨"user", s!"Context so far: {context}\n\nExecute this step: {pyStr d}\n\nReasoning: {pyStr r}"⟩]

/-- The numbered lines `"Step k result: ..."` built by `compile_results`
(source lines 167-170), numbering from 1, in input order. -/
def compileBlockLines (steps_results : List (Option String)) : List String :=
  steps_results.enum.map fun p =>
    match p with
    | (i, res) => s!"Step {i + 1} result: {optStr res}"

/-- The joined block `steps_text` of `compile_results` (source line 171). -/
def compileBlock (steps_results : List (Option String)) : String :=
  String.intercalate "\n\n" (compileBlockLines steps_results)

/-- The messages `compile_results` sends to the capability. -/
def compileMessages (steps_results : List (Option String)) (user_query : String) : List Message :=
  [⟨"system", compileSystemPrompt⟩,
   ⟨"user", s!"Original query: {user_query}\n\nResults from steps:\n{compileBlock steps_results}\n\nPlease provide a comprehensive, unified response to the original query."⟩]

/-- `Agent._call_llm` (source lines 59-85): calls the capability; a raised
exception is caught, reported, and turned into a `None` return. -/
def callLLM (env : Env) (messages : List Message) : List Event × Option String :=
  match env.llm messages with
  | .raises e => ([.llmCall messages, .printed s!"Error calling LLM: {e}"], none)
  | .content c => ([.llmCall messages], c)

/-- `Agent.analyze_task` (source lines 87-122): sends the planning request,
then `json.loads` the response.  A `None` response makes `json.loads`
raise `TypeError`, which the `except json.JSONDecodeError` handler does
not catch; a `JSONDecodeError` is caught, both the error and the raw text
are reported, and `[]` is returned. -/
def analyze_task (env : Env) (user_query : String) : List Event × Except PyError Json :=
  match callLLM env (analyzeMessages user_query) with
  | (ev, none) => (ev, .error .typeError)
  | (ev, some s) =>
    match env.parse s with
    | .ok j => (ev, .ok j)
    | .error _ =>
      (ev ++ [.printed "Error: Could not parse response as JSON",
              .printed s!"Raw response: {s}"],
       .ok (Json.arr []))

/-- `Agent.execute_step` (source lines 124-147): the f-string reads
`step['description']` then `step['reasoning']` (either read may raise),
then one capability call is made and its raw response returned. -/
def execute_step (env : Env) (step : Json) (context : String) :
    List Event × Except PyError (Option String) :=
  match pyGetItem step "description" with
  | .error e => ([], .error e)
  | .ok d =>
    match pyGetItem step "reasoning" with
    | .error e => ([], .error e)
    | .ok r =>
      match callLLM env (execMessages context d r) with
      | (ev, res) => (ev, .ok res)

/-- `Agent.compile_results` (source lines 149-178): numbers and joins the
step results, sends them with the original query, returns the raw
response. -/
def compile_results (env : Env) (steps_results : List (Option String)) (user_query : String) :
    List Event × Option String :=
  callLLM env (compileMessages steps_results user_query)

/-- The record `solve` appends to the context after step `i` (0-based):
`"\nStep i+1 result: <result>"`, source line 208. -/
def stepRecord (i : Nat) (result : Option String) : String :=
  s!"\nStep {i + 1} result: {optStr result}"

/-- The listing loop of `solve` (source lines 198-199): prints each step's
description; `step['description']` may raise. -/
def listSteps : Nat → List Json → List Event × Except PyError Unit
  | _, [] => ([], .ok ())
  | i, step :: rest =>
    match pyGetItem step "description" with
    | .error e => ([], .error e)
    | .ok d =>
      match listSteps (i + 1) rest with
      | (ev, out) => (Event.printed s!"  {i + 1}. {pyStr d}" :: ev, out)

/-- The execution loop of `solve` (source lines 204-211): for each step, in
order, print, execute with the accumulated context, append the result to
`step_results` and its record to `context`.  Returns the final
`step_results` and `context`. -/
def runSteps (env : Env) : List Json → Nat → String → List (Option String) →
    List Event × Except PyError (List (Option String) × String)
  | [], _, context, acc => ([], .ok (acc, context))
  | step :: rest, i, context, acc =>
    match pyGetItem step "description" with
    | .error e => ([], .error e)
    | .ok d =>
      match execute_step env step context with
      | (ev, .error e) =>
        (Event.printed s!"\n⚙️ Executing step {i + 1}: {pyStr d}" :: ev, .error e)
      | (ev, .ok result) =>
        match runSteps env rest (i + 1) (context ++ stepRecord i result) (acc ++ [result]) with
        | (ev2, out) =>
          (Event.printed s!"\n⚙️ Executing step {i + 1}: {pyStr d}" :: ev
             ++ [Event.printed "  ✅ Completed"] ++ ev2, out)

/-- The value `solve` returns: either the error dictionary of source line
195, or the full outcome dictionary of source lines 216-221. -/
inductive Outcome where
  | failed : String → Outcome
  | done : String → Json → List (Option String) → Option String → Outcome
deriving Repr

/-- `Agent.solve` (source lines 180-221): plan, short-circuit on an empty
(falsy) plan, list the steps, execute them in order with accumulating
context, compile, and assemble the outcome. -/
def solve (env : Env) (user_query : String) : List Event × Except PyError Outcome :=
  let pr0 := Event.printed s!"🤔 Analyzing task: {user_query}"
  match analyze_task env user_query with
  | (ev1, .error e) => (pr0 :: ev1, .error e)
  | (ev1, .ok steps) =>
    if pyFalsy steps then
      (pr0 :: ev1, .ok (.failed "Could not break down the task into steps"))
    else
      match pyLen steps with
      | .error e => (pr0 :: ev1, .error e)
      | .ok n =>
        let pr1 := Event.printed s!"📋 Breaking down into {n} steps:"
        match pyIter steps with
        | .error e => (pr0 :: ev1 ++ [pr1], .error e)
        | .ok xs =>
          match listSteps 0 xs with
          | (ev2, .error e) => (pr0 :: ev1 ++ [pr1] ++ ev2, .error e)
          | (ev2, .ok _) =>
            match runSteps env xs 0 "" [] with
            | (ev3, .error e) => (pr0 :: ev1 ++ [pr1] ++ ev2 ++ ev3, .error e)
            | (ev3, .ok (step_results, _context)) =>
              match compile_results env step_results user_query with
              | (ev4, final_response) =>
                (pr0 :: ev1 ++ [pr1] ++ ev2 ++ ev3
                   ++ [Event.printed "\n🔄 Compiling final response..."] ++ ev4,
                 .ok (.done user_query steps step_results final_response))

/-- The concatenation of the records `"\nStep k result: <result_k>"` for a
result list whose first element carries number `i + 1`. -/
def ctxFrom (i : Nat) : List (Option String) → String
  | [] => ""
  | r :: rest => stepRecord i r ++ ctxFrom (i + 1) rest

/-- A parsed plan entry of the shape the planner is asked for: a
dictionary carrying both a `description` and a `reasoning` key. -/
def isStepRecord (j : Json) : Prop :=
  ∃ d r, pyGetItem j "description" = .ok d ∧ pyGetItem j "reasoning" = .ok r

/-- The plan entry used to witness the normal completion of `solve`. -/
def c1Step : Json := Json.obj [("description", Json.str "a"), ("reasoning", Json.str "b")]

/-- A one-step plan. -/
def c1Plan : Json := Json.arr [c1Step]

/-- An environment whose capability always answers `"ok"` and whose parser
always yields the one-step plan. -/
def c1Env : Env := { llm := fun _ => .content (some "ok"), parse := fun _ => .ok c1Plan }

/-- The environment witnessing a planner that answers non-JSON text. -/
def c2Env : Env :=
  { llm := fun _ => .content (some "not json"),
    parse := fun _ => .error "Expecting value: line 1 column 1 (char 0)" }

/-- The record list used to witness verbatim plan preservation. -/
def c3Recs : List Json :=
  [Json.obj [("description", Json.str "a"), ("reasoning", Json.str "b")],
   Json.obj [("description", Json.str "c"), ("reasoning", Json.str "d")]]

/-- An environment whose parser yields `c3Recs`. -/
def c3Env : Env :=
  { llm := fun _ => .content (some "x"), parse := fun _ => .ok (Json.arr c3Recs) }

/-- An environment whose capability raises on every call. -/
def c9Env : Env :=
  { llm := fun _ => .raises "APIError", parse := fun _ => .ok Json.null }

/-- The content `_call_llm` extracts from one capability outcome: `None`
when the capability raised (the `except` branch), the returned content
otherwise. -/
def llmContent : LLMResult → Option String
  | .raises _ => none
  | .content c => c

/-- State-threading reading of `execute_step` for the frame property: the
third component is the `step` argument as the caller observes it after the
call.  Translated operation by operation from source lines 124-147: the
body performs exactly two reads of `step` (the subscripts in the f-string
at line 141) and no write, so no branch replaces the threaded value. -/
def execute_step_st (env : Env) (step : Json) (context : String) :
    (List Event × Except PyError (Option String)) × Json :=
  match pyGetItem step "description" with
  | .error e => (([], .error e), step)
  | .ok d =>
    match pyGetItem step "reasoning" with
    | .error e => (([], .error e), step)
    | .ok r =>
      match callLLM env (execMessages context d r) with
      | (ev, res) => ((ev, .ok res), step)

/-- State-threading reading of `compile_results` for the frame property:
the second component is the `steps_results` argument as the caller
observes it after the call.  The body's only use of the list is the
enumeration read at source lines 168-170, so it is threaded through
unchanged. -/
def compile_results_st (env : Env) (steps_results : List (Option String)) (user_query : String) :
    (List Event × Option String) × List (Option String) :=
  (callLLM env (compileMessages steps_results user_query), steps_results)

/-- Step results used to witness the compile contract: one present, one
absent. -/
def c5Rs : List (Option String) := [some "a", none]

/-- An environment whose capability always answers `"final"`. -/
def c5Env : Env :=
  { llm := fun _ => .content (some "final"), parse := fun _ => .ok Json.null }

/-- A well-formed step used to witness the execute contract. -/
def c6Step : Json :=
  Json.obj [("description", Json.str "d"), ("reasoning", Json.str "r")]

/-- An environment whose capability returns a `None` content, to witness
the null passthrough of `execute_step`. -/
def c6Env : Env :=
  { llm := fun _ => .content none, parse := fun _ => .ok Json.null }

/-- A plan entry that is valid JSON but lacks the `reasoning` key. -/
def c10Step : Json := Json.obj [("description", Json.str "x")]

/-- A parsed planner output that is valid JSON, non-empty, but not an
array of `{description, reasoning}` records. -/
def c10Plan : Json := Json.arr [c10Step]

/-- An environment whose parser yields `c10Plan`. -/
def c10Env : Env :=
  { llm := fun _ => .content (some "plan"), parse := fun _ => .ok c10Plan }

/-- The query of the two-step scenario. -/
def c7Q : String := "Plan a birthday party"

/-- First step of the two-step plan. -/
def c7S1 : Json :=
  Json.obj [("description", Json.str "Pick a venue"), ("reasoning", Json.str "Needed first")]

/-- Second step of the two-step plan. -/
def c7S2 : Json :=
  Json.obj [("description", Json.str "Send invites"), ("reasoning", Json.str "After venue is set")]

/-- A capability that answers each of the four calls of the two-step
scenario distinctly, all succeeding. -/
def c7Env : Env :=
  { llm := fun msgs =>
      if msgs = execMessages "" (Json.str "Pick a venue") (Json.str "Needed first") then
        .content (some "venue chosen")
      else if msgs = execMessages (stepRecord 0 (some "venue chosen"))
          (Json.str "Send invites") (Json.str "After venue is set") then
        .content (some "invites sent")
      else if msgs = compileMessages [some "venue chosen", some "invites sent"] c7Q then
        .content (some "party planned")
      else .content (some "[steps]"),
    parse := fun _ => .ok (Json.arr [c7S1, c7S2]) }

/-- A capability like `c7Env`'s but raising on the second step's call. -/
def c4Env : Env :=
  { llm := fun msgs =>
      if msgs = execMessages "" (Json.str "Pick a venue") (Json.str "Needed first") then
        .content (some "venue chosen")
      else if msgs = execMessages (stepRecord 0 (some "venue chosen"))
          (Json.str "Send invites") (Json.str "After venue is set") then
        .raises "RateLimitError"
      else if msgs = compileMessages [some "venue chosen", none] c7Q then
        .content (some "partial answer")
      else .content (some "[steps]"),
    parse := fun _ => .ok (Json.arr [c7S1, c7S2]) }

/-! ## Helper lemmas -/

/-- Invariant of the execution loop: on normal completion, the produced
results extend the accumulator by exactly one entry per step, and the
final context extends the incoming context by exactly the records of the
new results, in order. -/
theorem runSteps_ok (env : Env) (steps : List Json) :
    ∀ (i : Nat) (context : String) (acc : List (Option String))
      (tr : List Event) (res : List (Option String)) (ctx : String),
      runSteps env steps i context acc = (tr, .ok (res, ctx)) →
      ∃ new, res = acc ++ new ∧ new.length = steps.length ∧
        ctx = context ++ ctxFrom i new := by
  induction steps with
  | nil =>
    intro i context acc tr res ctx h
    simp only [runSteps, Prod.mk.injEq, Except.ok.injEq] at h
    refine ⟨[], ?_, rfl, ?_⟩
    · simp [h.2.1.symm]
    · simp [ctxFrom, h.2.2.symm]
  | cons step rest ih =>
    intro i context acc tr res ctx h
    rw [runSteps] at h
    rcases hd : pyGetItem step "description" with e | d
    · simp [hd] at h
    · rcases hex : execute_step env step context with ⟨ev, r⟩
      rcases r with e | result
      · simp [hd, hex] at h
      · rcases hrec : runSteps env rest (i + 1) (context ++ stepRecord i result)
          (acc ++ [result]) with ⟨ev2, out⟩
        simp only [hd, hex, hrec, Prod.mk.injEq] at h
        obtain ⟨new, hres, hlen, hctx⟩ := ih (i + 1) (context ++ stepRecord i result)
          (acc ++ [result]) ev2 res ctx (by rw [hrec, h.2])
        refine ⟨result :: new, ?_, by simp [hlen], ?_⟩
        · simp [hres, List.append_assoc]
        · rw [hctx, ctxFrom, String.append_assoc]

/-! ## Claims -/

/-- **C1.** For every step count `n ≥ 1`, when `solve(user_query)` completes
normally (the plan is non-empty and every `execute_step` and compile call
returns), the returned outcome satisfies
`len(step_results) == len(steps) == n`, and the accumulated context equals
the ordered concatenation of the records `"Step k result: <result_k>"` for
`k = 1..n`, with nothing ever removed or rewritten in the context. -/
theorem solve_ctx_invariant
    (env : Env) (q q' : String) (stepsJ : Json) (results : List (Option String))
    (finalr : Option String) (xs : List Json) (n : Nat)
    (hs : (solve env q).2 = .ok (.done q' stepsJ results finalr))
    (hx : pyIter stepsJ = .ok xs) (hn : xs.length = n) (h1 : 1 ≤ n) :
    results.length = n ∧ results.length = xs.length ∧
      (runSteps env xs 0 "" []).2 = .ok (results, ctxFrom 0 results) := by
  rcases hsv : solve env q with ⟨tr, out⟩
  rw [hsv] at hs
  simp only at hs
  unfold solve at hsv
  split at hsv
  next ev1 e heq => simp at hsv; rw [← hsv.2] at hs; simp at hs
  next ev1 steps heq =>
    split at hsv
    · simp at hsv; rw [← hsv.2] at hs; simp at hs
    · split at hsv
      next e hlen => simp at hsv; rw [← hsv.2] at hs; simp at hs
      next m hlen =>
        split at hsv
        next e hiter => simp at hsv; rw [← hsv.2] at hs; simp at hs
        next xs' hiter =>
          split at hsv
          next ev2 e hlist => simp at hsv; rw [← hsv.2] at hs; simp at hs
          next ev2 u hlist =>
            split at hsv
            next ev3 e hrun => simp at hsv; rw [← hsv.2] at hs; simp at hs
            next ev3 results' ctx hrun =>
              split at hsv
              next ev4 finalr' hcomp =>
                simp only [Prod.mk.injEq] at hsv
                rw [← hsv.2] at hs
                simp only [Except.ok.injEq, Outcome.done.injEq] at hs
                obtain ⟨hq, hsteps, hres, hfin⟩ := hs
                subst hsteps hres
                obtain ⟨new, hnew, hlen2, hctx⟩ :=
                  runSteps_ok env xs' 0 "" [] ev3 results' ctx hrun
                simp only [List.nil_append] at hnew
                rw [String.empty_append] at hctx
                have hxx : xs' = xs := by
                  rw [hiter] at hx
                  injection hx
                have hrl : results'.length = xs'.length := by rw [hnew, hlen2]
                refine ⟨?_, ?_, ?_⟩
                · rw [hrl, hxx, hn]
                · rw [hrl, hxx]
                · rw [← hxx, hrun, hctx, ← hnew]

/-- Witness for `solve_ctx_invariant`: a concrete completed run. -/
theorem solve_ctx_invariant_witness :
    (solve c1Env "t").2 = .ok (.done "t" c1Plan [some "ok"] (some "ok")) ∧
      pyIter c1Plan = .ok [c1Step] ∧ [c1Step].length = 1 ∧ 1 ≤ 1 ∧
      ([some "ok"] : List (Option String)).length = 1 ∧
      (runSteps c1Env [c1Step] 0 "" []).2 = .ok ([some "ok"], ctxFrom 0 [some "ok"]) :=
  ⟨rfl, rfl, rfl, le_refl 1,
    (solve_ctx_invariant c1Env "t" "t" c1Plan [some "ok"] (some "ok") [c1Step] 1
      rfl rfl rfl (le_refl 1)).1,
    (solve_ctx_invariant c1Env "t" "t" c1Plan [some "ok"] (some "ok") [c1Step] 1
      rfl rfl rfl (le_refl 1)).2.2⟩

/-- **C2.** For every `user_query`, if the planning capability returns
non-JSON text, then `analyze_task` returns an empty sequence — after
reporting both the parse error and the raw unparsed text — and `solve`
returns an outcome carrying only an error indicator, without ever invoking
`execute_step` or `compile_results` (the only capability call in the whole
trace is the planning call). -/
theorem plan_parse_failure_short_circuits
    (env : Env) (q s e : String)
    (hllm : env.llm (analyzeMessages q) = .content (some s))
    (hp : env.parse s = .error e) :
    analyze_task env q =
      ([.llmCall (analyzeMessages q),
        .printed "Error: Could not parse response as JSON",
        .printed s!"Raw response: {s}"], .ok (Json.arr [])) ∧
    solve env q =
      ([.printed s!"🤔 Analyzing task: {q}",
        .llmCall (analyzeMessages q),
        .printed "Error: Could not parse response as JSON",
        .printed s!"Raw response: {s}"],
       .ok (.failed "Could not break down the task into steps")) ∧
    llmEvents (solve env q).1 = [analyzeMessages q] := by
  have ha : analyze_task env q =
      ([.llmCall (analyzeMessages q),
        .printed "Error: Could not parse response as JSON",
        .printed s!"Raw response: {s}"], .ok (Json.arr [])) := by
    simp [analyze_task, callLLM, hllm, hp]
  refine ⟨ha, ?_, ?_⟩
  · simp [solve, ha, pyFalsy]
  · simp [solve, ha, pyFalsy, llmEvents]

/-- Witness for `plan_parse_failure_short_circuits`. -/
theorem plan_parse_failure_short_circuits_witness :
    c2Env.llm (analyzeMessages "t") = .content (some "not json") ∧
      c2Env.parse "not json" = .error "Expecting value: line 1 column 1 (char 0)" ∧
      solve c2Env "t" =
        ([.printed "🤔 Analyzing task: t",
          .llmCall (analyzeMessages "t"),
          .printed "Error: Could not parse response as JSON",
          .printed "Raw response: not json"],
         .ok (.failed "Could not break down the task into steps")) :=
  ⟨rfl, rfl,
    (plan_parse_failure_short_circuits c2Env "t" "not json"
      "Expecting value: line 1 column 1 (char 0)" rfl rfl).2.1⟩

/-- **C3.** For every `user_query`, whenever the planning capability returns
a well-formed JSON array of `{description, reasoning}` records,
`analyze_task` returns a sequence of the same length whose fields are
preserved verbatim: it returns exactly the parsed array. -/
theorem plan_preserves_wellformed_array
    (env : Env) (q s : String) (recs : List Json)
    (hllm : env.llm (analyzeMessages q) = .content (some s))
    (hp : env.parse s = .ok (Json.arr recs))
    (hshape : ∀ rec ∈ recs, isStepRecord rec) :
    (analyze_task env q).2 = .ok (Json.arr recs) ∧
      pyIter (Json.arr recs) = .ok recs ∧
      pyLen (Json.arr recs) = .ok recs.length := by
  refine ⟨?_, rfl, rfl⟩
  simp [analyze_task, callLLM, hllm, hp]

/-- Witness for `plan_preserves_wellformed_array`. -/
theorem plan_preserves_wellformed_array_witness :
    c3Env.llm (analyzeMessages "t") = .content (some "x") ∧
      c3Env.parse "x" = .ok (Json.arr c3Recs) ∧
      (∀ rec ∈ c3Recs, isStepRecord rec) ∧
      (analyze_task c3Env "t").2 = .ok (Json.arr c3Recs) ∧
      c3Recs.length = 2 :=
  ⟨rfl, rfl,
    by
      intro rec hrec
      simp [c3Recs] at hrec
      rcases hrec with h | h <;> subst h
      · exact ⟨Json.str "a", Json.str "b", rfl, rfl⟩
      · exact ⟨Json.str "c", Json.str "d", rfl, rfl⟩,
    (plan_preserves_wellformed_array c3Env "t" "x" c3Recs rfl rfl
      (by
        intro rec hrec
        simp [c3Recs] at hrec
        rcases hrec with h | h <;> subst h
        · exact ⟨Json.str "a", Json.str "b", rfl, rfl⟩
        · exact ⟨Json.str "c", Json.str "d", rfl, rfl⟩)).1,
    rfl⟩

/-- **C9.** If the completion call made during planning itself fails (the
capability raises, so `_call_llm` returns `None`), `analyze_task` does not
return an empty sequence: `json.loads` is applied to `None` and raises a
`TypeError` that the `JSONDecodeError` handler does not catch, so
`analyze_task` — and therefore `solve` — terminates with an uncaught
exception instead of producing any outcome. -/
theorem plan_llm_failure_raises_typeerror
    (env : Env) (q e : String)
    (hllm : env.llm (analyzeMessages q) = .raises e) :
    (analyze_task env q).2 = .error .typeError ∧
      (solve env q).2 = .error .typeError ∧
      ∀ j, (analyze_task env q).2 ≠ .ok j := by
  have ha : analyze_task env q =
      ([.llmCall (analyzeMessages q), .printed s!"Error calling LLM: {e}"],
       .error .typeError) := by
    simp [analyze_task, callLLM, hllm]
  refine ⟨by rw [ha], ?_, ?_⟩
  · simp [solve, ha]
  · intro j
    rw [ha]
    simp

/-- Witness for `plan_llm_failure_raises_typeerror`. -/
theorem plan_llm_failure_raises_typeerror_witness :
    c9Env.llm (analyzeMessages "t") = .raises "APIError" ∧
      (analyze_task c9Env "t").2 = .error .typeError ∧
      (solve c9Env "t").2 = .error .typeError :=
  ⟨rfl,
    (plan_llm_failure_raises_typeerror c9Env "t" "APIError" rfl).1,
    (plan_llm_failure_raises_typeerror c9Env "t" "APIError" rfl).2.1⟩

/-- **C5.** For every sequence of step results and every `user_query`,
`compile_results` concatenates all step results into a single numbered
block whose k-th entry is `"Step k result: <result_k>"` (numbering from 1,
in order), sends that block together with the original query to the
completion capability, and returns the capability's response; it is a pure
function of its inputs plus the capability (it is a Lean function of
exactly these arguments). -/
theorem compile_results_contract
    (env : Env) (steps_results : List (Option String)) (q : String) :
    llmEvents (compile_results env steps_results q).1 =
        [compileMessages steps_results q] ∧
      (compile_results env steps_results q).2 =
        llmContent (env.llm (compileMessages steps_results q)) ∧
      compileMessages steps_results q =
        [⟨"system", compileSystemPrompt⟩,
         ⟨"user", s!"Original query: {q}\n\nResults from steps:\n{compileBlock steps_results}\n\nPlease provide a comprehensive, unified response to the original query."⟩] ∧
      compileBlock steps_results =
        String.intercalate "\n\n" (compileBlockLines steps_results) ∧
      (compileBlockLines steps_results).length = steps_results.length ∧
      ∀ k (hk : k < steps_results.length),
        (compileBlockLines steps_results).get? k =
          some s!"Step {k + 1} result: {optStr (steps_results.get ⟨k, hk⟩)}" := by
  refine ⟨?_, ?_, rfl, rfl, by simp [compileBlockLines], ?_⟩
  · rcases h : env.llm (compileMessages steps_results q) with e | c <;>
      simp [compile_results, callLLM, h, llmEvents]
  · rcases h : env.llm (compileMessages steps_results q) with e | c <;>
      simp [compile_results, callLLM, h, llmContent]
  · intro k hk
    simp only [compileBlockLines, List.getElem?_map, List.getElem?_enum, Option.map_map]
    simp [List.getElem?_eq_getElem hk]

/-- Witness for `compile_results_contract`, at a two-entry result list with
one absent entry. -/
theorem compile_results_contract_witness :
    (0 : Nat) < c5Rs.length ∧ (1 : Nat) < c5Rs.length ∧
      (compileBlockLines c5Rs).get? 0 = some "Step 1 result: a" ∧
      (compileBlockLines c5Rs).get? 1 = some "Step 2 result: None" ∧
      (compile_results c5Env c5Rs "q").2 = some "final" :=
  ⟨by decide, by decide,
    (compile_results_contract c5Env c5Rs "q").2.2.2.2.2 0 (by decide),
    (compile_results_contract c5Env c5Rs "q").2.2.2.2.2 1 (by decide),
    by
      have h := (compile_results_contract c5Env c5Rs "q").2.1
      rw [h]
      rfl⟩

/-- **C6.** For every step and every context string, `execute_step` builds
a single request combining the running context, the step's description,
and the step's reasoning, and returns the completion capability's raw text
response unmodified — a `None` response is passed through as a `None`
result, with no retry (exactly one capability call appears in the
trace). -/
theorem execute_step_contract
    (env : Env) (step : Json) (context : String) (d r : Json)
    (hd : pyGetItem step "description" = .ok d)
    (hr : pyGetItem step "reasoning" = .ok r) :
    llmEvents (execute_step env step context).1 = [execMessages context d r] ∧
      (execute_step env step context).2 =
        .ok (llmContent (env.llm (execMessages context d r))) ∧
      execMessages context d r =
        [⟨"system", executeSystemPrompt⟩,
         ⟨"user", s!"Context so far: {context}\n\nExecute this step: {pyStr d}\n\nReasoning: {pyStr r}"⟩] := by
  refine ⟨?_, ?_, rfl⟩ <;>
    rcases h : env.llm (execMessages context d r) with e | c <;>
      simp [execute_step, hd, hr, callLLM, h, llmEvents, llmContent]

/-- Witness for `execute_step_contract`: a capability that returns a
`None` content, passed through as a `None` result. -/
theorem execute_step_contract_witness :
    pyGetItem c6Step "description" = .ok (Json.str "d") ∧
      pyGetItem c6Step "reasoning" = .ok (Json.str "r") ∧
      (execute_step c6Env c6Step "ctx").2 = .ok none ∧
      llmEvents (execute_step c6Env c6Step "ctx").1 =
        [execMessages "ctx" (Json.str "d") (Json.str "r")] :=
  ⟨rfl, rfl,
    (execute_step_contract c6Env c6Step "ctx" (Json.str "d") (Json.str "r") rfl rfl).2.1,
    (execute_step_contract c6Env c6Step "ctx" (Json.str "d") (Json.str "r") rfl rfl).1⟩

/-- **C8.** For every steps sequence and every step-results sequence,
`execute_step` and `compile_results` leave the step records and the
result sequence passed to them unchanged: in the state-threading reading
of both bodies (which perform only reads on these arguments), the value
the caller observes after the call equals the value before it, and the
observable behaviour agrees with `execute_step` / `compile_results`. -/
theorem execute_compile_no_mutation
    (env : Env) (step : Json) (context : String)
    (steps_results : List (Option String)) (q : String) :
    (execute_step_st env step context).2 = step ∧
      (execute_step_st env step context).1 = execute_step env step context ∧
      (compile_results_st env steps_results q).2 = steps_results ∧
      (compile_results_st env steps_results q).1 = compile_results env steps_results q := by
  refine ⟨?_, ?_, rfl, rfl⟩ <;>
    · rcases hd : pyGetItem step "description" with e | d <;>
        rcases hr : pyGetItem step "reasoning" with e' | r <;>
        simp [execute_step_st, execute_step, hd, hr]

/-- **C10.** `analyze_task` performs no validation of the parsed value's
shape: for a planner output parsed as `[{"description": "x"}]` — valid
JSON but not an array of `{description, reasoning}` records —
`analyze_task` returns that value unchanged, it passes `solve`'s
emptiness check, and the first `execute_step` call fails with
`KeyError('reasoning')` instead of `solve` taking the failed
short-circuit: `solve` propagates the `KeyError` after making only the
planning call. -/
theorem analyze_task_no_shape_validation :
    (analyze_task c10Env "task").2 = .ok c10Plan ∧
      pyGetItem c10Step "reasoning" = .error (.keyError "reasoning") ∧
      pyFalsy c10Plan = false ∧
      (execute_step c10Env c10Step "").2 = .error (.keyError "reasoning") ∧
      (solve c10Env "task").2 = .error (.keyError "reasoning") ∧
      llmEvents (solve c10Env "task").1 = [analyzeMessages "task"] :=
  ⟨rfl, rfl, rfl, rfl, rfl, rfl⟩

/-- **C7.** `solve` is strictly sequential: planning happens before any
step execution, steps are executed one at a time in plan order (each
seeing the context produced by all earlier steps — visible in the context
argument of each execute call), and `compile_results` is called exactly
once, after all steps.  For a plan of exactly 2 steps, the full capability
call trace is: the planning call, the two execute calls in order (the
second carrying the record of the first's result), then one compile call
with both results and the original query; `step_results` has length 2. -/
theorem solve_two_step_sequencing
    (env : Env) (q s : String) (s1 s2 d1 r1 d2 r2 : Json) (a1 a2 : String) (c : Option String)
    (hllm : env.llm (analyzeMessages q) = .content (some s))
    (hp : env.parse s = .ok (Json.arr [s1, s2]))
    (hd1 : pyGetItem s1 "description" = .ok d1)
    (hr1 : pyGetItem s1 "reasoning" = .ok r1)
    (hd2 : pyGetItem s2 "description" = .ok d2)
    (hr2 : pyGetItem s2 "reasoning" = .ok r2)
    (h1 : env.llm (execMessages "" d1 r1) = .content (some a1))
    (h2 : env.llm (execMessages (stepRecord 0 (some a1)) d2 r2) = .content (some a2))
    (hc : env.llm (compileMessages [some a1, some a2] q) = .content c) :
    (solve env q).2 =
        .ok (.done q (Json.arr [s1, s2]) [some a1, some a2] c) ∧
      llmEvents (solve env q).1 =
        [analyzeMessages q,
         execMessages "" d1 r1,
         execMessages (stepRecord 0 (some a1)) d2 r2,
         compileMessages [some a1, some a2] q] ∧
      (runSteps env [s1, s2] 0 "" []).2 =
        .ok ([some a1, some a2], stepRecord 0 (some a1) ++ stepRecord 1 (some a2)) := by
  have ha : analyze_task env q = ([.llmCall (analyzeMessages q)], .ok (Json.arr [s1, s2])) := by
    simp [analyze_task, callLLM, hllm, hp]
  have hex1 : execute_step env s1 "" =
      ([.llmCall (execMessages "" d1 r1)], .ok (some a1)) := by
    simp [execute_step, hd1, hr1, callLLM, h1]
  have hex2 : execute_step env s2 (stepRecord 0 (some a1)) =
      ([.llmCall (execMessages (stepRecord 0 (some a1)) d2 r2)], .ok (some a2)) := by
    simp [execute_step, hd2, hr2, callLLM, h2]
  have hrun : runSteps env [s1, s2] 0 "" [] =
      ([Event.printed s!"\n⚙️ Executing step 1: {pyStr d1}",
        Event.llmCall (execMessages "" d1 r1),
        Event.printed "  ✅ Completed",
        Event.printed s!"\n⚙️ Executing step 2: {pyStr d2}",
        Event.llmCall (execMessages (stepRecord 0 (some a1)) d2 r2),
        Event.printed "  ✅ Completed"],
       .ok ([some a1, some a2], stepRecord 0 (some a1) ++ stepRecord 1 (some a2))) := by
    simp [runSteps, hd1, hd2, hex1, hex2]
    exact ⟨rfl, rfl⟩
  have hcomp : compile_results env [some a1, some a2] q =
      ([.llmCall (compileMessages [some a1, some a2] q)], c) := by
    simp [compile_results, callLLM, hc]
  have hlist : listSteps 0 [s1, s2] =
      ([Event.printed s!"  1. {pyStr d1}", Event.printed s!"  2. {pyStr d2}"], .ok ()) := by
    simp [listSteps, hd1, hd2]
    exact ⟨rfl, rfl⟩
  refine ⟨?_, ?_, by rw [hrun]⟩
  · simp [solve, ha, hlist, hrun, hcomp, pyFalsy, pyLen, pyIter]
  · simp [solve, ha, hlist, hrun, hcomp, pyFalsy, pyLen, pyIter, llmEvents]

set_option maxRecDepth 100000 in
/-- Witness for `solve_two_step_sequencing`: the birthday-party scenario
run end to end on a concrete capability. -/
theorem solve_two_step_sequencing_witness :
    c7Env.llm (analyzeMessages c7Q) = .content (some "[steps]") ∧
      c7Env.parse "[steps]" = .ok (Json.arr [c7S1, c7S2]) ∧
      pyGetItem c7S1 "description" = .ok (Json.str "Pick a venue") ∧
      pyGetItem c7S1 "reasoning" = .ok (Json.str "Needed first") ∧
      pyGetItem c7S2 "description" = .ok (Json.str "Send invites") ∧
      pyGetItem c7S2 "reasoning" = .ok (Json.str "After venue is set") ∧
      c7Env.llm (execMessages "" (Json.str "Pick a venue") (Json.str "Needed first")) =
        .content (some "venue chosen") ∧
      c7Env.llm (execMessages (stepRecord 0 (some "venue chosen"))
          (Json.str "Send invites") (Json.str "After venue is set")) =
        .content (some "invites sent") ∧
      c7Env.llm (compileMessages [some "venue chosen", some "invites sent"] c7Q) =
        .content (some "party planned") ∧
      (solve c7Env c7Q).2 =
        .ok (.done c7Q (Json.arr [c7S1, c7S2])
          [some "venue chosen", some "invites sent"] (some "party planned")) ∧
      llmEvents (solve c7Env c7Q).1 =
        [analyzeMessages c7Q,
         execMessages "" (Json.str "Pick a venue") (Json.str "Needed first"),
         execMessages (stepRecord 0 (some "venue chosen"))
           (Json.str "Send invites") (Json.str "After venue is set"),
         compileMessages [some "venue chosen", some "invites sent"] c7Q] := by
  have h := solve_two_step_sequencing c7Env c7Q "[steps]" c7S1 c7S2
    (Json.str "Pick a venue") (Json.str "Needed first")
    (Json.str "Send invites") (Json.str "After venue is set")
    "venue chosen" "invites sent" (some "party planned")
    rfl rfl rfl rfl rfl rfl rfl rfl rfl
  exact ⟨rfl, rfl, rfl, rfl, rfl, rfl, rfl, rfl, rfl, h.1, h.2.1⟩

/-- **C4.** If the completion capability raises on the second step's call
(and succeeds on the first), `solve` produces `step_results` where entry 0
is populated and entry 1 is absent (`None`), the absent result's record
`"Step 2 result: None"` is still appended to the context threaded to any
later consumer (the final context of the run contains it), and
`compile_results` is still invoked — once — with both entries (one
absent), rather than the pipeline aborting. -/
theorem step_failure_degrades_but_continues
    (env : Env) (q s : String) (s1 s2 d1 r1 d2 r2 : Json) (a1 err : String) (c : Option String)
    (hllm : env.llm (analyzeMessages q) = .content (some s))
    (hp : env.parse s = .ok (Json.arr [s1, s2]))
    (hd1 : pyGetItem s1 "description" = .ok d1)
    (hr1 : pyGetItem s1 "reasoning" = .ok r1)
    (hd2 : pyGetItem s2 "description" = .ok d2)
    (hr2 : pyGetItem s2 "reasoning" = .ok r2)
    (h1 : env.llm (execMessages "" d1 r1) = .content (some a1))
    (h2 : env.llm (execMessages (stepRecord 0 (some a1)) d2 r2) = .raises err)
    (hc : env.llm (compileMessages [some a1, none] q) = .content c) :
    (solve env q).2 =
        .ok (.done q (Json.arr [s1, s2]) [some a1, none] c) ∧
      llmEvents (solve env q).1 =
        [analyzeMessages q,
         execMessages "" d1 r1,
         execMessages (stepRecord 0 (some a1)) d2 r2,
         compileMessages [some a1, none] q] ∧
      (runSteps env [s1, s2] 0 "" []).2 =
        .ok ([some a1, none], stepRecord 0 (some a1) ++ stepRecord 1 none) := by
  have ha : analyze_task env q = ([.llmCall (analyzeMessages q)], .ok (Json.arr [s1, s2])) := by
    simp [analyze_task, callLLM, hllm, hp]
  have hex1 : execute_step env s1 "" =
      ([.llmCall (execMessages "" d1 r1)], .ok (some a1)) := by
    simp [execute_step, hd1, hr1, callLLM, h1]
  have hex2 : execute_step env s2 (stepRecord 0 (some a1)) =
      ([.llmCall (execMessages (stepRecord 0 (some a1)) d2 r2),
        .printed s!"Error calling LLM: {err}"], .ok none) := by
    simp [execute_step, hd2, hr2, callLLM, h2]
  have hrun : runSteps env [s1, s2] 0 "" [] =
      ([Event.printed s!"\n⚙️ Executing step 1: {pyStr d1}",
        Event.llmCall (execMessages "" d1 r1),
        Event.printed "  ✅ Completed",
        Event.printed s!"\n⚙️ Executing step 2: {pyStr d2}",
        Event.llmCall (execMessages (stepRecord 0 (some a1)) d2 r2),
        Event.printed s!"Error calling LLM: {err}",
        Event.printed "  ✅ Completed"],
       .ok ([some a1, none], stepRecord 0 (some a1) ++ stepRecord 1 none)) := by
    simp [runSteps, hd1, hd2, hex1, hex2]
    exact ⟨rfl, rfl⟩
  have hcomp : compile_results env [some a1, none] q =
      ([.llmCall (compileMessages [some a1, none] q)], c) := by
    simp [compile_results, callLLM, hc]
  have hlist : listSteps 0 [s1, s2] =
      ([Event.printed s!"  1. {pyStr d1}", Event.printed s!"  2. {pyStr d2}"], .ok ()) := by
    simp [listSteps, hd1, hd2]
    exact ⟨rfl, rfl⟩
  refine ⟨?_, ?_, by rw [hrun]⟩
  · simp [solve, ha, hlist, hrun, hcomp, pyFalsy, pyLen, pyIter]
  · simp [solve, ha, hlist, hrun, hcomp, pyFalsy, pyLen, pyIter, llmEvents]

set_option maxRecDepth 100000 in
/-- Witness for `step_failure_degrades_but_continues`: the second step's
capability call raises, yet `solve` completes with a degraded outcome. -/
theorem step_failure_degrades_but_continues_witness :
    c4Env.llm (analyzeMessages c7Q) = .content (some "[steps]") ∧
      c4Env.parse "[steps]" = .ok (Json.arr [c7S1, c7S2]) ∧
      c4Env.llm (execMessages "" (Json.str "Pick a venue") (Json.str "Needed first")) =
        .content (some "venue chosen") ∧
      c4Env.llm (execMessages (stepRecord 0 (some "venue chosen"))
          (Json.str "Send invites") (Json.str "After venue is set")) =
        .raises "RateLimitError" ∧
      c4Env.llm (compileMessages [some "venue chosen", none] c7Q) =
        .content (some "partial answer") ∧
      (solve c4Env c7Q).2 =
        .ok (.done c7Q (Json.arr [c7S1, c7S2])
          [some "venue chosen", none] (some "partial answer")) ∧
      (runSteps c4Env [c7S1, c7S2] 0 "" []).2 =
        .ok ([some "venue chosen", none],
          stepRecord 0 (some "venue chosen") ++ stepRecord 1 none) := by
  have h := step_failure_degrades_but_continues c4Env c7Q "[steps]" c7S1 c7S2
    (Json.str "Pick a venue") (Json.str "Needed first")
    (Json.str "Send invites") (Json.str "After venue is set")
    "venue chosen" "RateLimitError" (some "partial answer")
    rfl rfl rfl rfl rfl rfl rfl rfl rfl
  exact ⟨rfl, rfl, rfl, rfl, rfl, h.1, h.2.2⟩
